import Mathlib

/-!
Shallow embedding of `internal/task/task_file_session_temp_clean.go`
(the `FileSessionTempCleanTask` of fast-note-sync-service) and proofs
about its behaviour.

Gophers' `time.Duration` values are modelled as `Int` nanoseconds,
file modification times and "now" as `Int` nanoseconds since the epoch.
The filesystem visible to one invocation of `Run` is modelled as an
explicit tree; fallible OS calls (`os.Stat`, `os.RemoveAll`,
`os.MkdirAll`, `os.Remove`) are modelled by explicit outcome data in an
environment record, so that one Lean function computes exactly what one
Go invocation does.
-/

namespace FastNoteSync

/-- One nanosecond-count hour, the value of Go `time.Hour`. -/
def hourNs : Int := 3600000000000

/-- `(t *FileSessionTempCleanTask) Name()`. -/
def taskName : String := "FileSessionTempClean"

/-- `(t *FileSessionTempCleanTask) LoopInterval()` returns `time.Hour`. -/
def loopIntervalNs : Int := hourNs

/-- `(t *FileSessionTempCleanTask) IsStartupRun()` returns `true`. -/
def isStartupRun : Bool := true

/-- `twoHoursAgo := time.Now().Add(-2 * time.Hour)` (line 88). -/
def twoHoursAgoOf (nowNs : Int) : Int := nowNs - 2 * hourNs

/-- The permission bits passed to `os.MkdirAll(tempDir, 0754)` (line 69). -/
def mkdirPerm : Nat := 0o754

/-- `tempDir := global.Config.App.TempPath; if tempDir == "" { tempDir =
"storage/temp" }` (lines 35–38). -/
def resolveTempDir (config : String) : String :=
  if config = "" then "storage/temp" else config

mutual

/-- A node of the directory tree rooted at the temp directory, as seen by
`filepath.Walk`: a regular file carries its `ModTime` (nanoseconds), a
directory carries its listed children. -/
inductive FsNode : Type where
  | file (modTime : Int) : FsNode
  | dir (children : FsEntries) : FsNode

/-- The ordered child list of a directory (name plus node), as produced by
`readDirNames`. -/
inductive FsEntries : Type where
  | nil : FsEntries
  | cons (name : String) (node : FsNode) (rest : FsEntries) : FsEntries

end

/-- Result of the `os.Stat(tempDir)` call at line 43, classified the way
line 43 classifies it: success, an error satisfying `os.IsNotExist`, or
any other error (e.g. permission denied). -/
inductive StatResult : Type where
  | ok : StatResult
  | notExist : StatResult
  | otherErr : StatResult
deriving DecidableEq, Repr

/-- The distinct non-nil errors `Run` can return. -/
inductive RunError : Type where
  | statNotExist : RunError
  | removeAllFailed : RunError
  | mkdirAllFailed : RunError
  | walkFailed : RunError
deriving DecidableEq, Repr

/-- A filesystem mutation attempted by one invocation of `Run`, in order. -/
inductive FsOp : Type where
  | removeAll (path : String) : FsOp
  | mkdirAll (path : String) (perm : Nat) : FsOp
  | removeFile (path : String) : FsOp
deriving DecidableEq, Repr

/-- The mutable data of the walk closure: the `deletedCount` and
`errorCount` counters (lines 89–90) plus the list of paths successfully
passed to `os.Remove`, in traversal order. -/
structure SweepState : Type where
  deletedCount : Nat
  errorCount : Nat
  removed : List String
deriving DecidableEq, Repr

/-- The initial walk-closure state: both counters zero, nothing removed. -/
def initSweep : SweepState := ⟨0, 0, []⟩

/-- The walk callback (lines 92–124).  `entry` is the `info` argument
(`none` when the walk hands the callback an access error together with a
nil info), `accessErr` says whether the walk passed a non-nil `err`, and
`removeFails` is the set of paths on which `os.Remove` would error.
The second component is the callback's returned `error`; every branch of
the Go function ends in `return nil`, which is why it is always `none`. -/
def walkFn (threshold : Int) (removeFails : List String)
    (path : String) (entry : Option FsNode) (accessErr : Bool)
    (st : SweepState) : SweepState × Option Unit :=
  if accessErr then
    (st, none)
  else
    match entry with
    | none => (st, none)
    | some (.dir _) => (st, none)
    | some (.file m) =>
      if m < threshold then
        if path ∈ removeFails then
          ({ st with errorCount := st.errorCount + 1 }, none)
        else
          ({ st with deletedCount := st.deletedCount + 1,
                     removed := st.removed ++ [path] }, none)
      else
        (st, none)

mutual

/-- `filepath.Walk`'s recursive `walk` on one node: visit the node itself,
then (for a directory) its children in order, aborting if the callback
returns a non-nil error, as the Go library function does. -/
def walkNode (threshold : Int) (removeFails : List String)
    (path : String) (n : FsNode) (st : SweepState) : SweepState × Option Unit :=
  match n with
  | .file m => walkFn threshold removeFails path (some (.file m)) false st
  | .dir cs =>
    match walkFn threshold removeFails path (some (.dir cs)) false st with
    | (st1, some e) => (st1, some e)
    | (st1, none) => walkEntries threshold removeFails path cs st1

/-- `filepath.Walk`'s loop over the listed children of a directory. -/
def walkEntries (threshold : Int) (removeFails : List String)
    (dirPath : String) (cs : FsEntries) (st : SweepState) : SweepState × Option Unit :=
  match cs with
  | .nil => (st, none)
  | .cons name n rest =>
    match walkNode threshold removeFails (dirPath ++ "/" ++ name) n st with
    | (st1, some e) => (st1, some e)
    | (st1, none) => walkEntries threshold removeFails dirPath rest st1

end

/-- `filepath.Walk(tempDir, fn)` (line 92): stat the root; if that fails
(the root vanished between line 43 and line 92) the error is handed to
the callback; otherwise walk the tree.  `rootNode = none` models the
failing root stat. -/
def filepathWalk (threshold : Int) (removeFails : List String)
    (root : String) (rootNode : Option FsNode) : SweepState × Option Unit :=
  match rootNode with
  | none => walkFn threshold removeFails root none true initSweep
  | some n => walkNode threshold removeFails root n initSweep

/-- Everything outside the task that one invocation of `Run` can observe:
the configured path, the outcome of `os.Stat`, the tree present when the
walk starts (`none` = the root vanished), whether `os.RemoveAll` and
`os.MkdirAll` would succeed, which paths `os.Remove` fails on, and the
wall clock. -/
structure Env : Type where
  tempPathConfig : String
  statResult : StatResult
  rootAtWalk : Option FsNode
  removeAllOk : Bool
  mkdirAllOk : Bool
  removeFails : List String
  nowNs : Int

/-- What one invocation of `Run` produced: the returned `error`, the value
of `t.firstRun` afterwards, the filesystem mutations attempted in order,
and the two counters reported in the success log line. -/
structure RunResult : Type where
  err : Option RunError
  firstRunAfter : Bool
  ops : List FsOp
  deletedCount : Nat
  errorCount : Nat
deriving DecidableEq, Repr

/-- `(t *FileSessionTempCleanTask) Run(ctx)` (lines 34–144).  `firstRun`
is the value of `t.firstRun` on entry; `ctxCancelled` is whether `ctx`
is cancelled — the Go body never consults `ctx`, and accordingly the
parameter is unused. -/
def run (firstRun : Bool) (ctxCancelled : Bool) (env : Env) : RunResult :=
  let _ := ctxCancelled
  let tempDir := resolveTempDir env.tempPathConfig
  -- lines 43–51: `if _, err = os.Stat(tempDir); os.IsNotExist(err)`
  if env.statResult = .notExist then
    { err := some .statNotExist, firstRunAfter := firstRun, ops := [],
      deletedCount := 0, errorCount := 0 }
  else if firstRun then
    -- line 55: `t.firstRun = false` happens before the wipe is attempted
    if env.removeAllOk = false then
      { err := some .removeAllFailed, firstRunAfter := false,
        ops := [.removeAll tempDir], deletedCount := 0, errorCount := 0 }
    else if env.mkdirAllOk = false then
      { err := some .mkdirAllFailed, firstRunAfter := false,
        ops := [.removeAll tempDir, .mkdirAll tempDir mkdirPerm],
        deletedCount := 0, errorCount := 0 }
    else
      { err := none, firstRunAfter := false,
        ops := [.removeAll tempDir, .mkdirAll tempDir mkdirPerm],
        deletedCount := 0, errorCount := 0 }
  else
    let threshold := twoHoursAgoOf env.nowNs
    let res := filepathWalk threshold env.removeFails tempDir env.rootAtWalk
    match res with
    | (st, some _) =>
      { err := some .walkFailed, firstRunAfter := firstRun,
        ops := st.removed.map .removeFile,
        deletedCount := st.deletedCount, errorCount := st.errorCount }
    | (st, none) =>
      { err := none, firstRunAfter := firstRun,
        ops := st.removed.map .removeFile,
        deletedCount := st.deletedCount, errorCount := st.errorCount }

mutual

/-- All regular files under a node in walk order, each as
(full path, modification time). -/
def listFiles (path : String) (n : FsNode) : List (String × Int) :=
  match n with
  | .file m => [(path, m)]
  | .dir cs => listFilesEntries path cs

/-- All regular files under a child list in walk order. -/
def listFilesEntries (dirPath : String) (cs : FsEntries) : List (String × Int) :=
  match cs with
  | .nil => []
  | .cons name n rest =>
    listFiles (dirPath ++ "/" ++ name) n ++ listFilesEntries dirPath rest

end

/-- `listFiles` through the optional root node. -/
def listFilesOpt (path : String) : Option FsNode → List (String × Int)
  | none => []
  | some n => listFiles path n

/-- The callback's effect on one regular file (lines 108–121), as a plain
state transformer. -/
def stepFile (threshold : Int) (removeFails : List String)
    (st : SweepState) (e : String × Int) : SweepState :=
  if e.2 < threshold then
    if e.1 ∈ removeFails then
      { st with errorCount := st.errorCount + 1 }
    else
      { st with deletedCount := st.deletedCount + 1,
                removed := st.removed ++ [e.1] }
  else st

/-- A file entry the sweep deletes: strictly older than the threshold and
removable. -/
def staleRemovable (threshold : Int) (removeFails : List String)
    (e : String × Int) : Bool :=
  decide (e.2 < threshold ∧ e.1 ∉ removeFails)

/-- A file entry the sweep tries and fails to delete: strictly older than
the threshold but not removable. -/
def staleStuck (threshold : Int) (removeFails : List String)
    (e : String × Int) : Bool :=
  decide (e.2 < threshold ∧ e.1 ∈ removeFails)

mutual

/-- Remove from a node every regular file whose full path is in `removed`;
`none` when the node itself was a removed file. -/
def eraseNode (removed : List String) (path : String) (n : FsNode) : Option FsNode :=
  match n with
  | .file m => if path ∈ removed then none else some (.file m)
  | .dir cs => some (.dir (eraseEntries removed path cs))

/-- Remove from a child list every regular file whose full path is in
`removed`. -/
def eraseEntries (removed : List String) (dirPath : String) (cs : FsEntries) : FsEntries :=
  match cs with
  | .nil => .nil
  | .cons name n rest =>
    match eraseNode removed (dirPath ++ "/" ++ name) n with
    | none => eraseEntries removed dirPath rest
    | some n2 => .cons name n2 (eraseEntries removed dirPath rest)

end

/-- `eraseNode` through the optional root node. -/
def eraseRoot (removed : List String) (root : String) : Option FsNode → Option FsNode
  | none => none
  | some n => eraseNode removed root n

/-- A file entry that survives a list of removals. -/
def survives (removed : List String) (e : String × Int) : Bool :=
  !(decide (e.1 ∈ removed))

/-- The paths of the `removeFile` operations among a list of operations. -/
def removedPathsOf (ops : List FsOp) : List String :=
  ops.filterMap (fun op =>
    match op with
    | .removeFile p => some p
    | _ => none)

/-- The state of the target directory as a whole: missing, or present with
permission bits and a child list. -/
inductive DirState : Type where
  | missing : DirState
  | present (perm : Nat) (children : FsEntries) : DirState

/-- The effect of one attempted filesystem operation on the target
directory (`os.RemoveAll`, `os.MkdirAll`, `os.Remove`). -/
def applyOp (root : String) (d : DirState) : FsOp → DirState
  | .removeAll _ => .missing
  | .mkdirAll _ perm =>
    match d with
    | .missing => .present perm .nil
    | .present q t => .present q t
  | .removeFile p =>
    match d with
    | .missing => .missing
    | .present q t => .present q (eraseEntries [p] root t)

/-- The effect of a whole invocation's operations, in order. -/
def applyOps (root : String) (d : DirState) (ops : List FsOp) : DirState :=
  ops.foldl (applyOp root) d

/-- Ten regular files `f0` … `f9`, all last modified one nanosecond before
the epoch. -/
def tenFiles : FsEntries :=
  .cons "f0" (.file (-1)) (.cons "f1" (.file (-1)) (.cons "f2" (.file (-1))
    (.cons "f3" (.file (-1)) (.cons "f4" (.file (-1)) (.cons "f5" (.file (-1))
      (.cons "f6" (.file (-1)) (.cons "f7" (.file (-1)) (.cons "f8" (.file (-1))
        (.cons "f9" (.file (-1)) .nil)))))))))

/-- Two regular files `x` and `y`, both last modified one nanosecond
before the epoch. -/
def twoStale : FsEntries :=
  .cons "x" (.file (-1)) (.cons "y" (.file (-1)) .nil)

/-- A directory holding file `a` one nanosecond older than modification
time 0 and file `b` exactly at it. -/
def boundaryTree : FsNode :=
  .dir (.cons "a" (.file (-1)) (.cons "b" (.file 0) .nil))

theorem walkFn_file (t : Int) (fails : List String) (p : String) (m : Int)
    (st : SweepState) :
    walkFn t fails p (some (.file m)) false st = (stepFile t fails st (p, m), none) := by
  unfold walkFn stepFile
  by_cases h1 : m < t
  · by_cases h2 : p ∈ fails <;> simp [h1, h2]
  · simp [h1]

mutual

theorem walkNode_eq (t : Int) (fails : List String) (p : String) (n : FsNode)
    (st : SweepState) :
    walkNode t fails p n st
      = (List.foldl (stepFile t fails) st (listFiles p n), none) := by
  match n with
  | .file m =>
    simp [walkNode, listFiles, walkFn_file]
  | .dir cs =>
    simp [walkNode, walkFn, listFiles, walkEntries_eq t fails p cs st]

theorem walkEntries_eq (t : Int) (fails : List String) (dirPath : String)
    (cs : FsEntries) (st : SweepState) :
    walkEntries t fails dirPath cs st
      = (List.foldl (stepFile t fails) st (listFilesEntries dirPath cs), none) := by
  match cs with
  | .nil => simp [walkEntries, listFilesEntries]
  | .cons name n rest =>
    rw [walkEntries, walkNode_eq t fails (dirPath ++ "/" ++ name) n st]
    simp [listFilesEntries, List.foldl_append,
      walkEntries_eq t fails dirPath rest
        (List.foldl (stepFile t fails) st (listFiles (dirPath ++ "/" ++ name) n))]

end

/-- The walk as a fold over the file entries; in particular the walk's own
returned error is always `nil`, because every branch of the callback
returns `nil`. -/
theorem filepathWalk_eq (t : Int) (fails : List String) (root : String)
    (rn : Option FsNode) :
    filepathWalk t fails root rn
      = (List.foldl (stepFile t fails) initSweep (listFilesOpt root rn), none) := by
  cases rn with
  | none => rfl
  | some n => simpa [filepathWalk, listFilesOpt] using walkNode_eq t fails root n initSweep

theorem foldl_stepFile_deletedCount (t : Int) (fails : List String)
    (es : List (String × Int)) (st : SweepState) :
    (List.foldl (stepFile t fails) st es).deletedCount
      = st.deletedCount + es.countP (staleRemovable t fails) := by
  induction es generalizing st with
  | nil => simp
  | cons e rest ih =>
    rw [List.foldl_cons, ih, List.countP_cons]
    unfold stepFile staleRemovable
    by_cases h1 : e.2 < t
    · by_cases h2 : e.1 ∈ fails <;> simp [h1, h2, Nat.add_assoc, Nat.add_comm]
    · simp [h1]

theorem foldl_stepFile_errorCount (t : Int) (fails : List String)
    (es : List (String × Int)) (st : SweepState) :
    (List.foldl (stepFile t fails) st es).errorCount
      = st.errorCount + es.countP (staleStuck t fails) := by
  induction es generalizing st with
  | nil => simp
  | cons e rest ih =>
    rw [List.foldl_cons, ih, List.countP_cons]
    unfold stepFile staleStuck
    by_cases h1 : e.2 < t
    · by_cases h2 : e.1 ∈ fails <;> simp [h1, h2, Nat.add_assoc, Nat.add_comm]
    · simp [h1]

theorem foldl_stepFile_removed (t : Int) (fails : List String)
    (es : List (String × Int)) (st : SweepState) :
    (List.foldl (stepFile t fails) st es).removed
      = st.removed ++ (es.filter (staleRemovable t fails)).map Prod.fst := by
  induction es generalizing st with
  | nil => simp
  | cons e rest ih =>
    rw [List.foldl_cons, ih, List.filter_cons]
    unfold stepFile staleRemovable
    by_cases h1 : e.2 < t
    · by_cases h2 : e.1 ∈ fails <;> simp [h1, h2]
    · simp [h1]

mutual

theorem listFilesOpt_eraseNode (removed : List String) (path : String) (n : FsNode) :
    listFilesOpt path (eraseNode removed path n)
      = (listFiles path n).filter (survives removed) := by
  match n with
  | .file m =>
    by_cases h : path ∈ removed <;>
      simp [eraseNode, listFiles, listFilesOpt, survives, h]
  | .dir cs =>
    simpa [eraseNode, listFiles, listFilesOpt] using
      listFilesEntries_erase removed path cs

theorem listFilesEntries_erase (removed : List String) (dirPath : String)
    (cs : FsEntries) :
    listFilesEntries dirPath (eraseEntries removed dirPath cs)
      = (listFilesEntries dirPath cs).filter (survives removed) := by
  match cs with
  | .nil => simp [eraseEntries, listFilesEntries]
  | .cons name n rest =>
    have h1 := listFilesOpt_eraseNode removed (dirPath ++ "/" ++ name) n
    have h2 := listFilesEntries_erase removed dirPath rest
    rw [eraseEntries]
    cases he : eraseNode removed (dirPath ++ "/" ++ name) n with
    | none =>
      rw [he] at h1
      simp only [listFilesOpt] at h1
      simp [listFilesEntries, List.filter_append, h2, ← h1]
    | some n2 =>
      rw [he] at h1
      simp only [listFilesOpt] at h1
      simp [listFilesEntries, List.filter_append, h2, h1]

end

/-- `eraseRoot` and `listFilesOpt` commute with filtering by survival. -/
theorem listFilesOpt_eraseRoot (removed : List String) (root : String)
    (rn : Option FsNode) :
    listFilesOpt root (eraseRoot removed root rn)
      = (listFilesOpt root rn).filter (survives removed) := by
  cases rn with
  | none => simp [eraseRoot, listFilesOpt]
  | some n => simpa [eraseRoot, listFilesOpt] using listFilesOpt_eraseNode removed root n

/-- Closed form of a SteadyState invocation whose `os.Stat` succeeded:
no error is returned, the flag stays cleared, and the operations and the
two counters are determined by the file list of the tree the walk saw. -/
theorem run_sweep (c : Bool) (cfg : String) (rn : Option FsNode)
    (rAll mk : Bool) (fails : List String) (now : Int) :
    run false c ⟨cfg, .ok, rn, rAll, mk, fails, now⟩ =
      { err := none, firstRunAfter := false,
        ops := ((listFilesOpt (resolveTempDir cfg) rn).filter
                  (staleRemovable (twoHoursAgoOf now) fails)).map
                 (fun e => FsOp.removeFile e.1),
        deletedCount := (listFilesOpt (resolveTempDir cfg) rn).countP
                  (staleRemovable (twoHoursAgoOf now) fails),
        errorCount := (listFilesOpt (resolveTempDir cfg) rn).countP
                  (staleStuck (twoHoursAgoOf now) fails) } := by
  unfold run
  simp [filepathWalk_eq, foldl_stepFile_deletedCount, foldl_stepFile_errorCount,
    foldl_stepFile_removed, initSweep, List.map_map, Function.comp]

theorem removedPathsOf_map_removeFile (es : List (String × Int)) :
    removedPathsOf (es.map (fun e => FsOp.removeFile e.1)) = es.map Prod.fst := by
  induction es with
  | nil => rfl
  | cons e rest ih =>
    simpa [removedPathsOf, List.filterMap_cons] using ih

/-- C1 (counterexample): in FirstRun, when the directory exists and
`os.RemoveAll` fails, `Run` does return the error, but the task does NOT
remain in FirstRun: `t.firstRun` was already cleared at line 55, before
the wipe was attempted. -/
theorem C1_counterexample :
    (run true false ⟨"r", .ok, some (.dir .nil), false, true, [], 0⟩).err
        = some RunError.removeAllFailed
    ∧ (run true false ⟨"r", .ok, some (.dir .nil), false, true, [], 0⟩).firstRunAfter
        = false :=
  ⟨rfl, rfl⟩

/-- C1 (amended): if the wipe fails — either the recursive delete or the
directory recreate — `Run` returns that error, but the instance has
already left the FirstRun state (the flag is cleared before the wipe is
attempted), so the next invocation performs the sweep, not the wipe. -/
theorem C1_wipe_failure_exits_firstRun (cfg : String) (c : Bool)
    (rn : Option FsNode) (mk : Bool) (fails : List String) (now : Int) :
    ((run true c ⟨cfg, .ok, rn, false, mk, fails, now⟩).err
        = some RunError.removeAllFailed
      ∧ (run true c ⟨cfg, .ok, rn, false, mk, fails, now⟩).firstRunAfter = false)
    ∧ ((run true c ⟨cfg, .ok, rn, true, false, fails, now⟩).err
        = some RunError.mkdirAllFailed
      ∧ (run true c ⟨cfg, .ok, rn, true, false, fails, now⟩).firstRunAfter = false) :=
  ⟨⟨rfl, rfl⟩, ⟨rfl, rfl⟩⟩

/-- C2: the claim is wrong about the code as written: because every branch
of the walk callback returns `nil`, `filepath.Walk` can never return a
non-nil error, so a SteadyState invocation whose `os.Stat` succeeded
always returns `nil` — even when the root path vanished before the walk
started (first conjunct: the concrete failing input; second conjunct: in
general).  The error-returning branch at lines 126–134 is unreachable. -/
theorem C2_walk_errors_absorbed :
    (run false false ⟨"r", .ok, none, true, true, [], 0⟩
        = { err := none, firstRunAfter := false, ops := [],
            deletedCount := 0, errorCount := 0 })
    ∧ ∀ (c : Bool) (cfg : String) (rn : Option FsNode) (rAll mk : Bool)
        (fails : List String) (now : Int),
        (run false c ⟨cfg, .ok, rn, rAll, mk, fails, now⟩).err = none := by
  refine ⟨rfl, ?_⟩
  intro c cfg rn rAll mk fails now
  rw [run_sweep]

/-- C3 (counterexample): a SteadyState invocation whose context is
cancelled behaves exactly like one whose context is not cancelled: it
completes the whole traversal (both stale files are deleted) and reports
success, instead of observing the cancellation and aborting early. -/
theorem C3_counterexample :
    run false true ⟨"r", .ok, some (.dir twoStale), true, true, [], 2 * hourNs⟩
        = run false false ⟨"r", .ok, some (.dir twoStale), true, true, [], 2 * hourNs⟩
    ∧ (run false true
        ⟨"r", .ok, some (.dir twoStale), true, true, [], 2 * hourNs⟩).deletedCount = 2
    ∧ (run false true
        ⟨"r", .ok, some (.dir twoStale), true, true, [], 2 * hourNs⟩).err = none := by
  refine ⟨rfl, ?_, rfl⟩
  decide

/-- C3 (amended): `Run` never consults the context: its result is the
same whatever the cancellation state of the context, so an in-progress
traversal never checks the cancellation signal and always runs to
completion. -/
theorem C3_run_ignores_cancellation (firstRun c1 c2 : Bool) (env : Env) :
    run firstRun c1 env = run firstRun c2 env := rfl

/-- C4: in a SteadyState invocation over a tree with distinct file paths,
a removable regular file is deleted (an `os.Remove` of its path is
issued) iff its modification time is strictly before `now` minus two
hours; equality at the threshold means retention. -/
theorem C4_file_deleted_iff_stale (cfg : String) (c rAll mk : Bool)
    (fails : List String) (now : Int) (tree : FsNode) (p : String) (m : Int)
    (hmem : (p, m) ∈ listFiles (resolveTempDir cfg) tree)
    (hnodup : ((listFiles (resolveTempDir cfg) tree).map Prod.fst).Nodup)
    (hremovable : p ∉ fails) :
    FsOp.removeFile p ∈ (run false c ⟨cfg, .ok, some tree, rAll, mk, fails, now⟩).ops
      ↔ m < twoHoursAgoOf now := by
  rw [run_sweep]
  simp only [listFilesOpt]
  constructor
  · intro h
    simp only [List.mem_map] at h
    obtain ⟨e, he, heq⟩ := h
    rw [List.mem_filter] at he
    injection heq with hp
    have hef : e = (p, m) :=
      List.inj_on_of_nodup_map hnodup he.1 hmem (by simpa using hp)
    have hsr := he.2
    rw [hef] at hsr
    simp only [staleRemovable, decide_eq_true_eq] at hsr
    exact hsr.1
  · intro h
    simp only [List.mem_map]
    exact ⟨(p, m), List.mem_filter.mpr
      ⟨hmem, by simp [staleRemovable, h, hremovable]⟩, rfl⟩

/-- C4 (witness): with the threshold at time 0, the file `r/a` (one
nanosecond older than the threshold) is deleted and the file `r/b`
(exactly at the threshold) is retained. -/
theorem C4_witness :
    FsOp.removeFile "r/a"
        ∈ (run false false ⟨"r", .ok, some boundaryTree, true, true, [], 2 * hourNs⟩).ops
    ∧ FsOp.removeFile "r/b"
        ∉ (run false false ⟨"r", .ok, some boundaryTree, true, true, [], 2 * hourNs⟩).ops :=
  ⟨(C4_file_deleted_iff_stale "r" false true true [] (2 * hourNs) boundaryTree "r/a" (-1)
      (by decide) (by decide) (by decide)).mpr (by decide),
   fun h => absurd
     ((C4_file_deleted_iff_stale "r" false true true [] (2 * hourNs) boundaryTree "r/b" 0
      (by decide) (by decide) (by decide)).mp h) (by decide)⟩

/-- C5: a SteadyState invocation counts one deletion per stale removable
file, one error per stale file whose removal fails, and returns no
task-level error; in the concrete ten-file instance where one removal is
denied, it reports 9 deletions and 1 error and returns `nil`. -/
theorem C5_partial_failure_counts (c : Bool) (cfg : String) (rAll mk : Bool)
    (fails : List String) (now : Int) (tree : FsNode) :
    ((run false c ⟨cfg, .ok, some tree, rAll, mk, fails, now⟩).deletedCount
        = (listFiles (resolveTempDir cfg) tree).countP
            (staleRemovable (twoHoursAgoOf now) fails)
      ∧ (run false c ⟨cfg, .ok, some tree, rAll, mk, fails, now⟩).errorCount
        = (listFiles (resolveTempDir cfg) tree).countP
            (staleStuck (twoHoursAgoOf now) fails)
      ∧ (run false c ⟨cfg, .ok, some tree, rAll, mk, fails, now⟩).err = none)
    ∧ ((run false false
          ⟨"r", .ok, some (.dir tenFiles), true, true, ["r/f3"], 2 * hourNs⟩).deletedCount = 9
      ∧ (run false false
          ⟨"r", .ok, some (.dir tenFiles), true, true, ["r/f3"], 2 * hourNs⟩).errorCount = 1
      ∧ (run false false
          ⟨"r", .ok, some (.dir tenFiles), true, true, ["r/f3"], 2 * hourNs⟩).err = none) := by
  refine ⟨⟨?_, ?_, ?_⟩, by decide⟩ <;> simp [run_sweep, listFilesOpt]

/-- C6: whenever `os.Stat` reports that the target directory does not
exist, `Run` returns the not-exist error, attempts no filesystem
mutation, and leaves `t.firstRun` unchanged, in both states. -/
theorem C6_missing_directory (st c : Bool) (cfg : String) (rn : Option FsNode)
    (rAll mk : Bool) (fails : List String) (now : Int) :
    run st c ⟨cfg, .notExist, rn, rAll, mk, fails, now⟩
      = { err := some RunError.statNotExist, firstRunAfter := st, ops := [],
          deletedCount := 0, errorCount := 0 } := rfl

/-- C7: a FirstRun invocation whose stat, delete and recreate all succeed
returns no error, clears the flag (transitions to SteadyState), performs
exactly a recursive delete followed by a recreate with permission bits
0754 — leaving the directory present, empty, with those bits, whatever
its prior contents — and no non-FirstRun invocation ever performs a
delete or recreate of the directory (its operations are all single-file
removals). -/
theorem C7_firstRun_success (c : Bool) (cfg : String) (rn : Option FsNode)
    (fails : List String) (now : Int) (d : DirState) :
    (run true c ⟨cfg, .ok, rn, true, true, fails, now⟩
        = { err := none, firstRunAfter := false,
            ops := [.removeAll (resolveTempDir cfg),
                    .mkdirAll (resolveTempDir cfg) mkdirPerm],
            deletedCount := 0, errorCount := 0 })
    ∧ applyOps (resolveTempDir cfg) d
        (run true c ⟨cfg, .ok, rn, true, true, fails, now⟩).ops
        = DirState.present mkdirPerm .nil
    ∧ ∀ (c2 : Bool) (env2 : Env),
        ((run false c2 env2).ops.all fun op =>
          match op with
          | FsOp.removeFile _ => true
          | _ => false) = true := by
  refine ⟨rfl, rfl, ?_⟩
  intro c2 env2
  obtain ⟨cfg2, sres, rn2, rAll2, mk2, fails2, now2⟩ := env2
  have sweepOps : ∀ (c3 : Bool),
      ((run false c3 ⟨cfg2, .ok, rn2, rAll2, mk2, fails2, now2⟩).ops.all fun op =>
        match op with
        | FsOp.removeFile _ => true
        | _ => false) = true := by
    intro c3
    rw [run_sweep]
    simp only [List.all_eq_true, List.mem_map]
    rintro op ⟨e, he, rfl⟩
    rfl
  cases sres with
  | ok => exact sweepOps c2
  | notExist => rfl
  | otherErr => exact sweepOps c2

/-- C8: running the SteadyState sweep a second time, at the same instant
and on the tree left behind by the first sweep's deletions, reports zero
deletions. -/
theorem C8_sweep_idempotent (c c2 rAll mk rAll2 mk2 : Bool) (cfg : String)
    (fails : List String) (now : Int) (rn : Option FsNode) :
    (run false c2 ⟨cfg, .ok,
        eraseRoot
          (removedPathsOf (run false c ⟨cfg, .ok, rn, rAll, mk, fails, now⟩).ops)
          (resolveTempDir cfg) rn,
        rAll2, mk2, fails, now⟩).deletedCount = 0 := by
  simp only [run_sweep, removedPathsOf_map_removeFile, listFilesOpt_eraseRoot]
  rw [List.countP_eq_zero]
  intro e he hsr
  rw [List.mem_filter] at he
  obtain ⟨hmem, hsur⟩ := he
  simp only [survives, Bool.not_eq_true', decide_eq_false_iff_not] at hsur
  exact hsur (List.mem_map.mpr ⟨e, List.mem_filter.mpr ⟨hmem, hsr⟩, rfl⟩)

/-- C9: the task declares a loop interval of exactly one hour and a
startup run; the sweep threshold is now minus two hours, and that grace
window strictly exceeds the loop interval. -/
theorem C9_task_constants :
    loopIntervalNs = hourNs
    ∧ isStartupRun = true
    ∧ (∀ now : Int, twoHoursAgoOf now = now - 2 * hourNs)
    ∧ loopIntervalNs < 2 * hourNs := by
  refine ⟨rfl, rfl, fun now => rfl, ?_⟩
  norm_num [loopIntervalNs, hourNs]

/-- C10: when `os.Stat` fails with an error that is not a not-exist error
(e.g. permission denied), `Run` does not return early: it behaves exactly
as if the existence check had succeeded, in both states. -/
theorem C10_stat_other_error_proceeds (st c : Bool) (cfg : String)
    (rn : Option FsNode) (rAll mk : Bool) (fails : List String) (now : Int) :
    run st c ⟨cfg, .otherErr, rn, rAll, mk, fails, now⟩
      = run st c ⟨cfg, .ok, rn, rAll, mk, fails, now⟩ := rfl

end FastNoteSync
